import Mathlib

set_option maxRecDepth 8000

/-!
Verification development for the apple_health repository.

This file gives a shallow embedding, in Lean, of the authentication-session /
job-ingestion pipeline of the repository (src/worker.py, src/daily_stats_all.py,
src/daily_stats.py) and proves or refutes the frozen claims about it.

Network calls and the filesystem are modelled by oracles passed as explicit
parameters; everything else is translated directly from the Python source.
-/

namespace AppleHealth

/-! ## Chunked batch upload

Embedding of `HealthDataProcessor._post_in_batches` (src/worker.py, lines
75-111).  The variant `_post_in_batches` of src/daily_stats_all.py (lines
273-291) has the same chunking loop and the same fail-fast structure, only the
payload wrapping is passed in as a builder there.

The loop `for start in range(0, total, chunk_size): chunk = items[start:end]`
is modelled by `chunksGo`, where one iteration takes `l.take n` and continues
on `l.drop n`.  The fuel argument bounds the number of iterations; `l.length`
iterations always suffice when `0 < n`. -/

def chunksGo (n : Nat) : Nat → List α → List (List α)
  | 0, _ => []
  | _, [] => []
  | fuel + 1, l => l.take n :: chunksGo n fuel (l.drop n)

/-- The list of chunks `items[0:n], items[n:2n], ...` posted by the batching
loop of `_post_in_batches`. -/
def chunkList (n : Nat) (l : List α) : List (List α) :=
  chunksGo n l.length l

/-- Payload shape selected by `_post_in_batches` (src/worker.py, lines 95-102):
the endpoint name decides whether the chunk nests under a `summaries` key
(optionally with a shared `exportDate` field) or under an `items` key.
`userInfo` stands for the single-object payload of `_post_json` at line 144. -/
inductive Shape where
  | summaries
  | summariesWithDate (d : String)
  | items
  | userInfo
deriving DecidableEq, Repr

/-- One POST issued to the backend: target endpoint, payload shape, and the
chunk of items it carried. -/
structure Post (α : Type) where
  endpoint : String
  shape : Shape
  chunk : List α
deriving DecidableEq, Repr

/-- Whether the first list is an initial segment of the second. -/
def leadsList : List Char → List Char → Bool
  | [], _ => true
  | _ :: _, [] => false
  | a :: as, b :: bs => a == b && leadsList as bs

/-- Whether `pat` occurs somewhere in `s`. -/
def subOccurs (pat : List Char) : List Char → Bool
  | [] => pat.isEmpty
  | c :: rest => leadsList pat (c :: rest) || subOccurs pat rest

/-- Python's substring test `pat in s`, on the characters of the strings. -/
def containsSub (s pat : String) : Bool :=
  subOccurs pat.data s.data

/-- Lines 95-102 of src/worker.py: choose the payload wrapping from the
endpoint name.  `export_date` is added to activity-summary payloads only when
it is present (truthy). -/
def payloadShape (endpoint : String) (exportDate : Option String) : Shape :=
  if containsSub endpoint "daily-summaries" then .summaries
  else if containsSub endpoint "activity-summaries" then
    match exportDate with
    | some d => .summariesWithDate d
    | none => .summaries
  else .items

/-- The batching loop body of `_post_in_batches` (src/worker.py, lines 91-109)
over an already-chunked list.  `oracle j` is the network's answer
(`200 <= status < 300`) to the `j`-th POST the process issues; `k` is the index
of the next POST.  Returns the trace of POSTs actually issued, the boolean
result of the call, and the next POST index.  On a failed chunk the loop
returns `False` at once and issues no later POST (lines 105-107).  The
`time.sleep(0.1)` between batches is throttling only and has no effect on the
values modelled here. -/
def postBatchesGo (oracle : Nat → Bool) (ep : String) (ed : Option String) :
    Nat → List (List α) → List (Post α) × Bool × Nat
  | k, [] => ([], true, k)
  | k, c :: cs =>
    if oracle k then
      (⟨ep, payloadShape ep ed, c⟩ :: (postBatchesGo oracle ep ed (k + 1) cs).1,
        (postBatchesGo oracle ep ed (k + 1) cs).2.1,
        (postBatchesGo oracle ep ed (k + 1) cs).2.2)
    else
      ([⟨ep, payloadShape ep ed, c⟩], false, k + 1)

/-- `HealthDataProcessor._post_in_batches` (src/worker.py, lines 75-111).
An empty item list returns `True` without any POST (lines 84-86). -/
def post_in_batches (oracle : Nat → Bool) (ep : String) (items : List α)
    (chunk_size : Nat) (ed : Option String) (k : Nat) :
    List (Post α) × Bool × Nat :=
  if items.isEmpty then ([], true, k)
  else postBatchesGo oracle ep ed k (chunkList chunk_size items)

theorem chunksGo_flatten (n : Nat) (hn : 0 < n) :
    ∀ (fuel : Nat) (l : List α), l.length ≤ fuel →
      (chunksGo n fuel l).flatten = l := by
  intro fuel
  induction fuel with
  | zero =>
    intro l hl
    have : l = [] := List.eq_nil_of_length_eq_zero (Nat.le_zero.mp hl)
    subst this
    rfl
  | succ fuel ih =>
    intro l hl
    cases l with
    | nil => rfl
    | cons a l2 =>
      show ((a :: l2).take n :: chunksGo n fuel ((a :: l2).drop n)).flatten = a :: l2
      have hlen : ((a :: l2).drop n).length ≤ fuel := by
        rw [List.length_drop]
        simp only [List.length_cons] at hl ⊢
        omega
      rw [List.flatten_cons, ih _ hlen, List.take_append_drop]

theorem chunkList_flatten (n : Nat) (hn : 0 < n) (l : List α) :
    (chunkList n l).flatten = l :=
  chunksGo_flatten n hn l.length l le_rfl

theorem chunksGo_mem (n : Nat) (hn : 0 < n) :
    ∀ (fuel : Nat) (l : List α) (c : List α), c ∈ chunksGo n fuel l →
      c.length ≤ n ∧ c ≠ [] := by
  intro fuel
  induction fuel with
  | zero => intro l c hc; simp [chunksGo] at hc
  | succ fuel ih =>
    intro l c hc
    cases l with
    | nil => simp [chunksGo] at hc
    | cons a l2 =>
      rw [show chunksGo n (fuel + 1) (a :: l2)
            = (a :: l2).take n :: chunksGo n fuel ((a :: l2).drop n) from rfl,
        List.mem_cons] at hc
      rcases hc with h | h
      · subst h
        constructor
        · simp [List.length_take]
        · obtain ⟨m, rfl⟩ := Nat.exists_eq_add_of_lt hn
          simp [List.take_cons]
      · exact ih _ _ h

theorem chunkList_mem (n : Nat) (hn : 0 < n) (l : List α) (c : List α)
    (hc : c ∈ chunkList n l) : c.length ≤ n ∧ c ≠ [] :=
  chunksGo_mem n hn l.length l c hc

/-- The POSTs issued by the batching loop are exactly an initial segment of the
chunk list, in order. -/
theorem postBatchesGo_trace (oracle : Nat → Bool) (ep : String)
    (ed : Option String) :
    ∀ (cs : List (List α)) (k : Nat),
      (postBatchesGo oracle ep ed k cs).1.map Post.chunk
        = cs.take (postBatchesGo oracle ep ed k cs).1.length := by
  intro cs
  induction cs with
  | nil => intro k; rfl
  | cons c cs ih =>
    intro k
    by_cases h : oracle k = true
    · simp only [postBatchesGo, h, if_true, List.map_cons, List.length_cons,
        List.take_succ_cons]
      rw [ih (k + 1)]
    · simp only [Bool.not_eq_true] at h
      simp [postBatchesGo, h]

/-- The next POST index advances by exactly the number of POSTs issued. -/
theorem postBatchesGo_index (oracle : Nat → Bool) (ep : String)
    (ed : Option String) :
    ∀ (cs : List (List α)) (k : Nat),
      (postBatchesGo oracle ep ed k cs).2.2
        = k + (postBatchesGo oracle ep ed k cs).1.length := by
  intro cs
  induction cs with
  | nil => intro k; simp [postBatchesGo]
  | cons c cs ih =>
    intro k
    by_cases h : oracle k = true
    · simp only [postBatchesGo, h, if_true, List.length_cons]
      rw [ih (k + 1)]
      omega
    · simp only [Bool.not_eq_true] at h
      simp [postBatchesGo, h]

/-- The loop returns `True` exactly when every chunk's POST succeeds. -/
theorem postBatchesGo_success (oracle : Nat → Bool) (ep : String)
    (ed : Option String) :
    ∀ (cs : List (List α)) (k : Nat),
      ((postBatchesGo oracle ep ed k cs).2.1 = true
        ↔ ∀ j < cs.length, oracle (k + j) = true) := by
  intro cs
  induction cs with
  | nil => intro k; simp [postBatchesGo]
  | cons c cs ih =>
    intro k
    by_cases h : oracle k = true
    · simp only [postBatchesGo, h, if_true, List.length_cons]
      rw [ih (k + 1)]
      constructor
      · intro hall j hj
        cases j with
        | zero => simpa using h
        | succ j =>
          have h2 := hall j (Nat.lt_of_succ_lt_succ hj)
          rw [show k + (j + 1) = k + 1 + j by omega]
          exact h2
      · intro hall j hj
        have h2 := hall (j + 1) (Nat.succ_lt_succ hj)
        rw [show k + 1 + j = k + (j + 1) by omega]
        exact h2
    · simp only [Bool.not_eq_true] at h
      have hred : (postBatchesGo oracle ep ed k (c :: cs)).2.1 = false := by
        simp [postBatchesGo, h]
      rw [hred]
      constructor
      · intro hf
        exact absurd hf (by decide)
      · intro hall
        have h0 := hall 0 (Nat.succ_pos cs.length)
        rw [Nat.add_zero] at h0
        rw [h] at h0
        exact absurd h0 (by decide)

/-- When the loop fails, the POST at the last issued index failed and all
earlier issued POSTs succeeded: the trace stops right after the first failed
chunk. -/
theorem postBatchesGo_failure (oracle : Nat → Bool) (ep : String)
    (ed : Option String) :
    ∀ (cs : List (List α)) (k : Nat),
      (postBatchesGo oracle ep ed k cs).2.1 = false →
      ∃ f, f < cs.length ∧ oracle (k + f) = false ∧
        (∀ j < f, oracle (k + j) = true) ∧
        (postBatchesGo oracle ep ed k cs).1.length = f + 1 := by
  intro cs
  induction cs with
  | nil => intro k hfail; simp [postBatchesGo] at hfail
  | cons c cs ih =>
    intro k hfail
    by_cases h : oracle k = true
    · simp only [postBatchesGo, h, if_true] at hfail
      obtain ⟨f, hf1, hf2, hf3, hf4⟩ := ih (k + 1) hfail
      refine ⟨f + 1, by simpa using Nat.succ_lt_succ hf1, ?_, ?_, ?_⟩
      · rw [show k + (f + 1) = k + 1 + f by omega]
        exact hf2
      · intro j hj
        cases j with
        | zero => simpa using h
        | succ j =>
          have := hf3 j (Nat.lt_of_succ_lt_succ hj)
          rw [show k + (j + 1) = k + 1 + j by omega]
          exact this
      · simp only [postBatchesGo, h, if_true, List.length_cons]
        omega
    · simp only [Bool.not_eq_true] at h
      refine ⟨0, Nat.succ_pos _, by simpa using h, by omega, ?_⟩
      simp [postBatchesGo, h]

/-- Unconditionally, `post_in_batches` is the batching loop on the chunk list:
for an empty item list both sides are one successful no-POST run. -/
theorem post_in_batches_eq (oracle : Nat → Bool) (ep : String)
    (items : List α) (n : Nat) (ed : Option String) (k : Nat) :
    post_in_batches oracle ep items n ed k
      = postBatchesGo oracle ep ed k (chunkList n items) := by
  cases items with
  | nil => rfl
  | cons a l => rfl

/-- Claim C1: for every item list and positive chunk size, `_post_in_batches`
partitions the list into consecutive nonempty chunks of at most `chunk_size`
preserving the original order and posts them sequentially; the POSTs issued
are an initial segment of that chunk list; the call returns true iff every
chunk POST succeeds; on a first failed chunk it returns false having issued
exactly the chunks up to and including the failed one and no later POST; for
an empty item list it returns true without issuing any POST; and with 250
items and chunk size 100 it issues exactly 3 POSTs of sizes 100, 100, 50 in
that order. -/
theorem claim_c1 (n : Nat) (hn : 0 < n) (oracle : Nat → Bool) (ep : String)
    (ed : Option String) (k : Nat) (items : List α) :
    ((chunkList n items).flatten = items) ∧
    (∀ c ∈ chunkList n items, c.length ≤ n ∧ c ≠ []) ∧
    ((post_in_batches oracle ep items n ed k).1.map Post.chunk
      = (chunkList n items).take
          (post_in_batches oracle ep items n ed k).1.length) ∧
    ((post_in_batches oracle ep items n ed k).2.1 = true
      ↔ ∀ j < (chunkList n items).length, oracle (k + j) = true) ∧
    (∀ f, f < (chunkList n items).length → oracle (k + f) = false →
      (∀ j < f, oracle (k + j) = true) →
      (post_in_batches oracle ep items n ed k).1.length = f + 1 ∧
      (post_in_batches oracle ep items n ed k).2.1 = false) ∧
    (items = [] → post_in_batches oracle ep items n ed k = ([], true, k)) ∧
    ((post_in_batches (fun _ => true) "/api/apple-health/daily-summaries"
        (List.replicate 250 (0 : Nat)) 100 none 0).1.map
        (fun p => p.chunk.length) = [100, 100, 50]) := by
  rw [post_in_batches_eq]
  refine ⟨chunkList_flatten n hn items, ?_, ?_, ?_, ?_, ?_, ?_⟩
  · intro c hc
    exact chunkList_mem n hn items c hc
  · exact postBatchesGo_trace oracle ep ed (chunkList n items) k
  · exact postBatchesGo_success oracle ep ed (chunkList n items) k
  · intro f hf hfail hbefore
    have hres : (postBatchesGo oracle ep ed k (chunkList n items)).2.1 = false := by
      rcases (postBatchesGo oracle ep ed k (chunkList n items)).2.1.eq_false_or_eq_true
        with h | h
      · have := (postBatchesGo_success oracle ep ed (chunkList n items) k).mp h f hf
        rw [this] at hfail
        exact absurd hfail (by decide)
      · exact h
    obtain ⟨f2, hf2len, hf2fail, hf2before, hf2count⟩ :=
      postBatchesGo_failure oracle ep ed (chunkList n items) k hres
    have hff : f = f2 := by
      rcases Nat.lt_trichotomy f f2 with hlt | heq | hgt
      · have := hf2before f hlt
        rw [this] at hfail
        exact absurd hfail (by decide)
      · exact heq
      · have := hbefore f2 hgt
        rw [this] at hf2fail
        exact absurd hf2fail (by decide)
    subst hff
    exact ⟨hf2count, hres⟩
  · intro hempty
    subst hempty
    rfl
  · decide

/-- Witness for C1 at a concrete input: chunk size 100 over a three-item list
(one chunk), with an all-succeeding network. -/
theorem claim_c1_witness :
    (0 < 100) ∧
    ((chunkList 100 [1, 2, 3]).flatten = [1, 2, 3]) ∧
    ((post_in_batches (fun _ => true) "/e" [1, 2, 3] 100 none 0).2.1 = true) := by
  refine ⟨by decide,
    (claim_c1 100 (by decide) (fun _ => true) "/e" none 0 [1, 2, 3]).1, ?_⟩
  exact (claim_c1 100 (by decide) (fun _ => true) "/e" none 0
    [1, 2, 3]).2.2.2.1.mpr (by decide)

/-! ## XML processing and the job state machine

Embedding of `HealthDataProcessor.process_xml` (src/worker.py, lines 113-180)
and `HealthFileHandler._process_job` (src/worker.py, lines 265-314).

The XML parsing and daily aggregation (lines 120-141) are upstream of the
claims about this part; their outcome is summarised by a `Doc` value: the
already-built daily summary list (`_build_summaries`, line 149), the activity
summary list (lines 154-156) and the export date (line 134).  `doc = none`
is the `ET.ParseError` path (lines 172-174), on which `process_xml` returns
`False`. -/

/-- The data `process_xml` extracts from a parsed export file before posting. -/
structure Doc (α : Type) where
  summaries : List α
  activities : List α
  exportDate : Option String
deriving DecidableEq, Repr

/-- `HealthDataProcessor.process_xml` (src/worker.py, lines 113-180), returning
the trace of POSTs issued and the boolean result.  Note the translation of
lines 145, 150 and 158: the results of `_post_json` and of both
`_post_in_batches` calls are discarded — no branch of the source inspects
them — and the function reaches `return True` (line 170) whenever the
document parsed, regardless of how many POSTs failed. -/
def process_xml (oracle : Nat → Bool) (doc : Option (Doc α)) :
    List (Post α) × Bool :=
  match doc with
  | none => ([], false)
  | some d =>
    (Post.mk "/api/apple-health/user-infos" .userInfo []
      :: (post_in_batches oracle "/api/apple-health/daily-summaries"
            d.summaries 100 none 1).1
      ++ (if d.activities.isEmpty then []
          else (post_in_batches oracle "/api/apple-health/activity-summaries"
            d.activities 100 d.exportDate
            (post_in_batches oracle "/api/apple-health/daily-summaries"
              d.summaries 100 none 1).2.2).1),
      true)

/-- A parsed job descriptor `{xml_path, token, user_id}` (src/worker.py,
lines 274-279). -/
structure Job where
  xml_path : String
  token : String
  user_id : String
deriving DecidableEq, Repr

/-- The observable effects of one `_process_job` invocation. -/
structure JobOutcome (α : Type) where
  posts : List (Post α)
  movedToArchive : Bool
  descriptorDeleted : Bool
  enteredBody : Bool
deriving DecidableEq, Repr

/-- `HealthFileHandler._process_job` (src/worker.py, lines 265-314), as one
sequential invocation.  `processing` is the dedup set, `desc` the result of
parsing the descriptor JSON (`none` is the `json.JSONDecodeError` path,
line 306), `xmlExists` the filesystem's answer to `xml_path.exists()`
(line 281).  On success the export file is moved into the per-user archive
and the descriptor deleted (lines 291-302); on failure both are left in
place (lines 303-304).  The interleaving of concurrent invocations is
modelled separately by `GuardState`/`stepSys` below. -/
def process_job (processing : List String) (jobPath : String)
    (desc : Option Job) (xmlExists : Bool) (doc : Option (Doc α))
    (oracle : Nat → Bool) : JobOutcome α :=
  if jobPath ∈ processing then ⟨[], false, false, false⟩
  else if desc.isNone then ⟨[], false, false, true⟩
  else if ¬ xmlExists then ⟨[], false, false, true⟩
  else
    if (process_xml oracle doc).2
    then ⟨(process_xml oracle doc).1, true, true, true⟩
    else ⟨(process_xml oracle doc).1, false, false, true⟩

/-- Claim C2 (evaluation at the failing input): a job whose daily-summaries
chunk POST fails is nevertheless archived.  With a parsed document holding one
daily summary, and a network that fails POST number 1 (the daily-summaries
chunk; POST number 0 is the user-info call), `process_xml` still returns
`True`, and `_process_job` therefore moves the export file into the archive
and deletes the descriptor — the claim says a failed chunk marks the job
failed and leaves both files in place. -/
theorem claim_c2_eval :
    ((fun i => decide (i ≠ 1)) 1 = false) ∧
    (process_xml (fun i => decide (i ≠ 1))
        (some (⟨[7], [], none⟩ : Doc Nat))).1.map Post.shape
      = [.userInfo, .summaries] ∧
    (process_xml (fun i => decide (i ≠ 1))
        (some (⟨[7], [], none⟩ : Doc Nat))).2 = true ∧
    process_job [] "job1.json" (some ⟨"export.xml", "tok", "u1"⟩) true
        (some (⟨[7], [], none⟩ : Doc Nat)) (fun i => decide (i ≠ 1))
      = ⟨[⟨"/api/apple-health/user-infos", .userInfo, []⟩,
          ⟨"/api/apple-health/daily-summaries", .summaries, [7]⟩],
          true, true, true⟩ := by
  refine ⟨by decide, by decide, by decide, by decide⟩

/-- Claim C9: a job whose descriptor parses but whose referenced `xml_path`
does not exist is abandoned with no POST issued, the descriptor is not
deleted, and nothing is moved into the archive. -/
theorem claim_c9 (processing : List String) (jobPath : String) (j : Job)
    (doc : Option (Doc α)) (oracle : Nat → Bool)
    (hfree : jobPath ∉ processing) :
    process_job processing jobPath (some j) false doc oracle
      = ⟨[], false, false, true⟩ := by
  simp [process_job, hfree]

/-- Witness for C9 at a concrete input. -/
theorem claim_c9_witness :
    process_job [] "job1.json" (some ⟨"gone.xml", "tok", "u1"⟩) false
        (none : Option (Doc Nat)) (fun _ => true)
      = ⟨[], false, false, true⟩ :=
  claim_c9 [] "job1.json" ⟨"gone.xml", "tok", "u1"⟩ none (fun _ => true)
    (by decide)

/-! ## Redirect-callback handler

Embedding of `CallbackHandler.do_GET` (src/daily_stats_all.py, lines 66-83;
identically src/daily_stats.py, lines 67-84).

The request is represented by the decoded key/value pairs of its query
string.  `urllib.parse.parse_qs` with its default `keep_blank_values=False`
drops every pair whose value is empty and groups the remaining values per
key in order; `params.get("token", [None])[0]` is then the head of the
"token" group. -/

/-- `urllib.parse.parse_qs(query)[key]`: the non-blank values carried by
`key`, in query order. -/
def parseQs (pairs : List (String × String)) (key : String) : List String :=
  (pairs.filter (fun p => p.1 == key && p.2 != "")).map Prod.snd

/-- The globals the handler touches: the keyring token entry (written by
`store_token`, line 74) and the `AUTH_SUCCESS` event (line 76). -/
structure ServerState where
  storedToken : Option String
  authSuccess : Bool
deriving DecidableEq, Repr

/-- `CallbackHandler.do_GET` (src/daily_stats_all.py, lines 66-83): returns
the new global state and the HTTP status sent.  A non-empty token value
(non-empty because `parse_qs` already dropped blank values, and a missing
key yields `None` — both falsy) stores the token, sets the success event and
answers 200; anything else answers 400 and touches nothing. -/
def do_GET (pairs : List (String × String)) (st : ServerState) :
    ServerState × Nat :=
  match (parseQs pairs "token").head? with
  | some t => (⟨some t, true⟩, 200)
  | none => (st, 400)

theorem head_mem_of_some {l : List α} {a : α} (h : l.head? = some a) :
    a ∈ l := by
  cases l with
  | nil => cases h
  | cons b t =>
    simp only [List.head?] at h
    rw [← Option.some_inj.mp h]
    exact List.mem_cons_self b t

/-- Claim C3: a GET whose query carries a non-empty token value stores that
token, signals success and answers 200; any other GET answers 400, does not
signal success and writes nothing.  The first conjunct ties the head of the
parsed token group to the claim's "query string carries a non-empty token
value". -/
theorem claim_c3 (pairs : List (String × String)) (st : ServerState) :
    ((parseQs pairs "token").head?.isSome
      ↔ ∃ p ∈ pairs, p.1 = "token" ∧ p.2 ≠ "") ∧
    (∀ t, (parseQs pairs "token").head? = some t →
      do_GET pairs st = (⟨some t, true⟩, 200) ∧ t ≠ "") ∧
    ((parseQs pairs "token").head? = none → do_GET pairs st = (st, 400)) := by
  refine ⟨?_, ?_, ?_⟩
  · rw [Option.isSome_iff_exists]
    constructor
    · rintro ⟨t, ht⟩
      obtain ⟨p, hp, hpt⟩ := List.mem_map.mp (head_mem_of_some ht)
      have hfil := List.of_mem_filter hp
      simp only [Bool.and_eq_true, beq_iff_eq, bne_iff_ne] at hfil
      exact ⟨p, List.mem_of_mem_filter hp, hfil.1, hfil.2⟩
    · rintro ⟨p, hp, hkey, hval⟩
      have hmem : p.2 ∈ parseQs pairs "token" := by
        apply List.mem_map_of_mem Prod.snd
        apply List.mem_filter.mpr
        exact ⟨hp, by simp [hkey, hval]⟩
      cases hq : parseQs pairs "token" with
      | nil => rw [hq] at hmem; cases hmem
      | cons a l => exact ⟨a, rfl⟩
  · intro t ht
    refine ⟨by simp [do_GET, ht], ?_⟩
    obtain ⟨p, hp, hpt⟩ := List.mem_map.mp (head_mem_of_some ht)
    have hfil := List.of_mem_filter hp
    simp only [Bool.and_eq_true, beq_iff_eq, bne_iff_ne] at hfil
    rw [← hpt]
    exact hfil.2
  · intro ht
    simp [do_GET, ht]

/-- Witness for C3: a request carrying `token=abc` stores it and answers 200;
a request with only a blank token answers 400 leaving the state alone. -/
theorem claim_c3_witness :
    (do_GET [("token", "abc")] ⟨none, false⟩ = (⟨some "abc", true⟩, 200)) ∧
    (do_GET [("token", "")] ⟨none, false⟩ = (⟨none, false⟩, 400)) := by
  constructor
  · exact ((claim_c3 [("token", "abc")] ⟨none, false⟩).2.1 "abc" (by decide)).1
  · exact (claim_c3 [("token", "")] ⟨none, false⟩).2.2 (by decide)

/-! ## Authentication session wait loop

Embedding of `ensure_authenticated` (src/daily_stats_all.py, lines 104-173;
identically src/daily_stats.py, lines 105-174).

Time is modelled by rationals (seconds of the monotonic clock).  The two
events `AUTH_SUCCESS` and `CANCEL_EVENT` are sampled at the top of each loop
iteration through the oracles `authSet i` and `cancel i`; `elapse i` is the
real time that passes during the `AUTH_SUCCESS.wait(min(0.25, remaining))`
call of iteration `i` (the wait may return early if the event is set, and
scheduling may stretch it, so it is an arbitrary value).  The fuel argument
is a model artifact bounding the number of iterations examined; `none` means
the run was not followed to completion. -/

inductive WaitOutcome where
  | succeeded
  | cancelled
  | timedOut
deriving DecidableEq, Repr

/-- The listener teardown actions of the `finally` block (lines 160-167):
`SERVER_STATE["instance"].shutdown()` then `server_thread.join(timeout=2)`. -/
inductive TeardownAct where
  | shutdown
  | join
deriving DecidableEq, Repr

/-- The wait loop of `ensure_authenticated` (lines 147-159): per iteration,
check `AUTH_SUCCESS`, then `CANCEL_EVENT` (a set cancel event raises
`KeyboardInterrupt`, surfaced here as the `cancelled` outcome), then compare
`remaining = deadline - now` against 0, and otherwise wait for at most
`min(0.25, remaining)` seconds and loop.  Returns the outcome and the clock
value at exit. -/
def waitLoop (authSet cancel : Nat → Bool) (elapse : Nat → ℚ) (deadline : ℚ) :
    Nat → Nat → ℚ → Option (WaitOutcome × ℚ)
  | 0, _, _ => none
  | fuel + 1, i, now =>
    if authSet i then some (.succeeded, now)
    else if cancel i then some (.cancelled, now)
    else if deadline - now ≤ 0 then some (.timedOut, now)
    else waitLoop authSet cancel elapse deadline fuel (i + 1) (now + elapse i)

/-- How a run of `ensure_authenticated` ends. -/
inductive AuthExit where
  | cachedToken (tk : String)
  | listenerFailed
  | loopExit (o : WaitOutcome)
  | fuelOut
deriving DecidableEq, Repr

/-- `ensure_authenticated` (src/daily_stats_all.py, lines 104-173).  A cached
token returns immediately with no listener started (lines 106-108).
`serverReady` is whether `SERVER_READY.wait(timeout=5)` succeeded; on failure
the partially started listener is shut down and joined and the call fails
(lines 117-126).  Otherwise the wait loop runs with
`deadline = monotonic() + 30` (line 145), and on every exit path the
`finally` block shuts the listener down and joins its thread before control
returns (lines 160-167).  The browser-open step (lines 128-142) has no
effect on the modelled values. -/
def ensure_authenticated (stored : Option String) (serverReady : Bool)
    (authSet cancel : Nat → Bool) (elapse : Nat → ℚ) (t0 : ℚ) (fuel : Nat) :
    (AuthExit × ℚ) × List TeardownAct :=
  match stored with
  | some tk => ((.cachedToken tk, t0), [])
  | none =>
    if serverReady then
      match waitLoop authSet cancel elapse (t0 + 30) fuel 0 t0 with
      | some (o, t) => ((.loopExit o, t), [.shutdown, .join])
      | none => ((.fuelOut, t0), [.shutdown, .join])
    else
      ((.listenerFailed, t0), [.shutdown, .join])

theorem waitLoop_timeout_late (authSet cancel : Nat → Bool) (elapse : Nat → ℚ)
    (deadline : ℚ) (hA : ∀ i, authSet i = false) (hC : ∀ i, cancel i = false) :
    ∀ (fuel i : Nat) (now : ℚ) (o : WaitOutcome) (t : ℚ),
      waitLoop authSet cancel elapse deadline fuel i now = some (o, t) →
      o = .timedOut ∧ deadline ≤ t := by
  intro fuel
  induction fuel with
  | zero => intro i now o t h; cases h
  | succ fuel ih =>
    intro i now o t h
    rw [show waitLoop authSet cancel elapse deadline (fuel + 1) i now
          = if authSet i then some (.succeeded, now)
            else if cancel i then some (.cancelled, now)
            else if deadline - now ≤ 0 then some (.timedOut, now)
            else waitLoop authSet cancel elapse deadline fuel (i + 1)
              (now + elapse i) from rfl, hA i, hC i] at h
    simp only [Bool.false_eq_true, if_false] at h
    by_cases hd : deadline - now ≤ 0
    · rw [if_pos hd] at h
      obtain ⟨ho, ht⟩ := Prod.mk.injEq .. ▸ Option.some_inj.mp h
      subst ht
      exact ⟨ho.symm ▸ rfl, by linarith⟩
    · rw [if_neg hd] at h
      exact ih (i + 1) (now + elapse i) o t h

/-- Claim C5: a run of `ensure_authenticated` with no cached token in which
neither the success flag nor the cancellation flag is ever set exits the wait
loop with the timeout outcome only at or after the configured deadline
(`t0 + 30`), never before it. -/
theorem claim_c5 (authSet cancel : Nat → Bool) (elapse : Nat → ℚ) (t0 : ℚ)
    (fuel : Nat) (hA : ∀ i, authSet i = false) (hC : ∀ i, cancel i = false) :
    ∀ (o : WaitOutcome) (t : ℚ) (acts : List TeardownAct),
      ensure_authenticated none true authSet cancel elapse t0 fuel
        = ((.loopExit o, t), acts) →
      o = .timedOut ∧ t0 + 30 ≤ t := by
  intro o t acts h
  rw [show ensure_authenticated none true authSet cancel elapse t0 fuel
        = match waitLoop authSet cancel elapse (t0 + 30) fuel 0 t0 with
          | some (o2, t2) => ((.loopExit o2, t2), [.shutdown, .join])
          | none => ((.fuelOut, t0), [.shutdown, .join]) from rfl] at h
  cases hw : waitLoop authSet cancel elapse (t0 + 30) fuel 0 t0 with
  | none =>
    rw [hw] at h
    cases (AuthExit.noConfusion
      (congrArg Prod.fst (congrArg Prod.fst h)) : False)
  | some p =>
    obtain ⟨o2, t2⟩ := p
    rw [hw] at h
    have ho : o2 = o := by
      have := congrArg Prod.fst (congrArg Prod.fst h)
      cases this
      rfl
    have ht : t2 = t := congrArg Prod.snd (congrArg Prod.fst h)
    subst ho
    subst ht
    exact waitLoop_timeout_late authSet cancel elapse (t0 + 30) hA hC
      fuel 0 t0 o2 t2 hw

theorem waitLoop_succ (authSet cancel : Nat → Bool) (elapse : Nat → ℚ)
    (deadline : ℚ) (fuel i : Nat) (now : ℚ) :
    waitLoop authSet cancel elapse deadline (fuel + 1) i now
      = if authSet i then some (.succeeded, now)
        else if cancel i then some (.cancelled, now)
        else if deadline - now ≤ 0 then some (.timedOut, now)
        else waitLoop authSet cancel elapse deadline fuel (i + 1)
          (now + elapse i) := rfl

/-- Witness for C5: with the events never set and 30 seconds elapsing in one
wait, the loop times out exactly at the deadline, not before. -/
theorem claim_c5_witness :
    WaitOutcome.timedOut = WaitOutcome.timedOut ∧ (0 : ℚ) + 30 ≤ 0 + 30 := by
  have hw : waitLoop (fun _ => false) (fun _ => false) (fun _ => (30 : ℚ))
      ((0 : ℚ) + 30) 2 0 0 = some (.timedOut, 0 + 30) := by
    rw [waitLoop_succ]
    simp only [Bool.false_eq_true, if_false]
    rw [if_neg (by norm_num : ¬ ((0 : ℚ) + 30 - 0 ≤ 0)), waitLoop_succ]
    simp only [Bool.false_eq_true, if_false]
    rw [if_pos (by norm_num : (0 : ℚ) + 30 - (0 + 30) ≤ 0)]
  refine claim_c5 (fun _ => false) (fun _ => false) (fun _ => 30) 0 2
    (fun _ => rfl) (fun _ => rfl) .timedOut (0 + 30) [.shutdown, .join] ?_
  rw [show ensure_authenticated none true (fun _ => false) (fun _ => false)
        (fun _ => (30 : ℚ)) 0 2
        = match waitLoop (fun _ => false) (fun _ => false) (fun _ => (30 : ℚ))
            ((0 : ℚ) + 30) 2 0 0 with
          | some (o2, t2) => ((.loopExit o2, t2), [.shutdown, .join])
          | none => ((.fuelOut, 0), [.shutdown, .join]) from rfl, hw]

/-- Claim C6: a run of `ensure_authenticated` with no cached token and the
cancellation flag already set before the wait loop starts (and no token
captured) terminates with the cancelled outcome with zero waiting — within
one poll interval — and the listener teardown (shutdown then thread join)
runs before control returns. -/
theorem claim_c6 (authSet cancel : Nat → Bool) (elapse : Nat → ℚ) (t0 : ℚ)
    (fuel : Nat) (hA : authSet 0 = false) (hC : cancel 0 = true) :
    ensure_authenticated none true authSet cancel elapse t0 (fuel + 1)
      = ((.loopExit .cancelled, t0), [.shutdown, .join]) := by
  have hw : waitLoop authSet cancel elapse (t0 + 30) (fuel + 1) 0 t0
      = some (.cancelled, t0) := by
    rw [show waitLoop authSet cancel elapse (t0 + 30) (fuel + 1) 0 t0
          = if authSet 0 then some (.succeeded, t0)
            else if cancel 0 then some (.cancelled, t0)
            else if (t0 + 30) - t0 ≤ 0 then some (.timedOut, t0)
            else waitLoop authSet cancel elapse (t0 + 30) fuel 1
              (t0 + elapse 0) from rfl, hA, hC]
    simp
  rw [show ensure_authenticated none true authSet cancel elapse t0 (fuel + 1)
        = match waitLoop authSet cancel elapse (t0 + 30) (fuel + 1) 0 t0 with
          | some (o2, t2) => ((.loopExit o2, t2), [.shutdown, .join])
          | none => ((.fuelOut, t0), [.shutdown, .join]) from rfl, hw]

/-- Witness for C6 at a concrete input. -/
theorem claim_c6_witness :
    ensure_authenticated none true (fun _ => false) (fun _ => true)
        (fun _ => 1) 0 5
      = ((.loopExit .cancelled, 0), [.shutdown, .join]) :=
  claim_c6 (fun _ => false) (fun _ => true) (fun _ => 1) 0 4 rfl rfl

/-! ## Token validation

Embedding of `validate_token` (src/daily_stats_all.py, lines 176-193;
identically src/daily_stats.py, lines 177-194).

The outcome alphabet of the liveness call is the set of exception classes the
repository's own network helpers distinguish: `_post_json` in the same file
catches `(urllib.error.URLError, urllib.error.HTTPError, socket.timeout)`
(src/daily_stats_all.py, line 268).  `response s` is a response object whose
`.status` is `s` (a non-error status, since `urlopen` raises `HTTPError` for
error statuses); `socketTimeout` is a read timeout raised by the response
machinery as `socket.timeout`/`TimeoutError`, which is an `OSError` but not a
subclass of `URLError`. -/

inductive LivenessOutcome where
  | response (status : Nat)
  | urlError
  | httpError (code : Nat)
  | socketTimeout
deriving DecidableEq, Repr

/-- `validate_token` (src/daily_stats_all.py, lines 176-193): returns
`resp.status == 200` on a response; the `except` clause at line 191 catches
only `URLError` and `HTTPError`, so a `socket.timeout` propagates out of the
function (`Except.error`). -/
def validate_token (outcome : LivenessOutcome) : Except LivenessOutcome Bool :=
  match outcome with
  | .response s => .ok (s == 200)
  | .urlError => .ok false
  | .httpError _ => .ok false
  | .socketTimeout => .error .socketTimeout

/-- Claim C8 (evaluation, including the failing input): `validate_token`
returns true exactly on status 200 and collapses `URLError`/`HTTPError`
failures to false, but a timeout surfacing as `socket.timeout` is not caught
and propagates past the boundary — the claim says every failure mode,
including timeout, collapses to false without raising. -/
theorem claim_c8 :
    validate_token (.response 200) = .ok true ∧
    (∀ s, s ≠ 200 → validate_token (.response s) = .ok false) ∧
    validate_token .urlError = .ok false ∧
    (∀ c, validate_token (.httpError c) = .ok false) ∧
    validate_token .socketTimeout = .error .socketTimeout := by
  refine ⟨rfl, ?_, rfl, fun c => rfl, rfl⟩
  intro s hs
  simp [validate_token, hs]

/-- Witness for C8 at a concrete non-200 status. -/
theorem claim_c8_witness : validate_token (.response 503) = .ok false :=
  claim_c8.2.1 503 (by decide)

/-! ## Driver validate/clear/retry cycle

Embedding of the module driver of src/daily_stats_all.py (lines 483-508;
identically src/daily_stats.py, lines 595-621).

`ensureO i` is the value returned by the `i`-th `ensure_authenticated()`
call, `validateO i` the result of the `i`-th `validate_token` call, and
`cancelO i` whether `CANCEL_EVENT.is_set()` holds at the check following the
`i`-th ensure call.  `sys.exit(1)` is the `exitFailure` result; reaching
`export_excel(token)` is `exported`. -/

/-- How many times the driver called each collaborator, and whether it
cleared the stored token. -/
structure DriverTrace where
  ensureCalls : Nat
  validateCalls : Nat
  clearedStoredToken : Bool
deriving DecidableEq, Repr

inductive DriverResult where
  | exitFailure
  | exported (tk : String)
deriving DecidableEq, Repr

/-- The driver flow (src/daily_stats_all.py, lines 483-508): authenticate,
exit on cancellation or missing token, validate; on an invalid token clear
the stored token (line 495; a `KeyringError` there is swallowed), re-run the
session exactly once, re-check cancellation and presence, validate again,
and exit on a second invalid result (lines 505-507). -/
def driver (ensureO : Nat → Option String) (validateO : Nat → Bool)
    (cancelO : Nat → Bool) : DriverResult × DriverTrace :=
  if cancelO 0 then (.exitFailure, ⟨1, 0, false⟩)
  else
    match ensureO 0 with
    | none => (.exitFailure, ⟨1, 0, false⟩)
    | some tk =>
      if validateO 0 then (.exported tk, ⟨1, 1, false⟩)
      else
        if cancelO 1 then (.exitFailure, ⟨2, 1, true⟩)
        else
          match ensureO 1 with
          | none => (.exitFailure, ⟨2, 1, true⟩)
          | some tk2 =>
            if validateO 1 then (.exported tk2, ⟨2, 2, true⟩)
            else (.exitFailure, ⟨2, 2, true⟩)

/-- Claim C7: when the validator rejects the cached token, the driver clears
the stored token and retries the session exactly once (the trace shows two
ensure calls and the cleared flag); if the validator rejects the retried
token too, the run exits with failure and no further retry is attempted; if
the retried token validates, the run proceeds with it. -/
theorem claim_c7 (ensureO : Nat → Option String) (validateO cancelO : Nat → Bool)
    (tk tk2 : String) (hcan : ∀ i, cancelO i = false)
    (h0 : ensureO 0 = some tk) (h1 : ensureO 1 = some tk2)
    (hv : validateO 0 = false) :
    ((driver ensureO validateO cancelO).2 = ⟨2, 2, true⟩) ∧
    (validateO 1 = false →
      driver ensureO validateO cancelO = (.exitFailure, ⟨2, 2, true⟩)) ∧
    (validateO 1 = true →
      driver ensureO validateO cancelO = (.exported tk2, ⟨2, 2, true⟩)) := by
  have hred : driver ensureO validateO cancelO
      = if validateO 1 then (.exported tk2, ⟨2, 2, true⟩)
        else (.exitFailure, ⟨2, 2, true⟩) := by
    rw [driver, hcan 0, h0]
    simp only [Bool.false_eq_true, if_false]
    rw [hv, hcan 1, h1]
    simp only [Bool.false_eq_true, if_false]
  refine ⟨?_, ?_, ?_⟩
  · rw [hred]
    by_cases h : validateO 1 = true
    · rw [if_pos h]
    · rw [if_neg h]
  · intro h
    rw [hred, h]
    simp
  · intro h
    rw [hred, h]
    simp

/-- Witness for C7 at concrete oracles: the first validation fails, the
second fails too, so the run exits with failure after exactly two ensure
calls and a cleared token. -/
theorem claim_c7_witness :
    driver (fun _ => some "tok") (fun _ => false) (fun _ => false)
      = (.exitFailure, ⟨2, 2, true⟩) :=
  (claim_c7 (fun _ => some "tok") (fun _ => false) (fun _ => false)
    "tok" "tok" (fun _ => rfl) rfl rfl rfl).2.1 rfl

/-! ## Dedup guard against duplicate notifications

Interleaving model of the in-flight set discipline of
`HealthFileHandler._process_job` (src/worker.py, lines 265-314) for two
concurrent handler invocations with the same descriptor path.

Each invocation executes four atomic steps:
  pc 0 — the guard check `if str(job_file) in self.processing: return`
         (line 267; if the path is in the set the invocation finishes
         without ever entering the job body);
  pc 1 — `self.processing.add(str(job_file))` (line 270);
  pc 2 — the whole `try` body (lines 272-304: descriptor read, xml
         processing, archive-or-fail); its outcome — success, failure or a
         raised exception — does not matter to the set discipline, because
         every path through the body reaches the `finally` clause;
  pc 3 — `finally: self.processing.discard(str(job_file))` (lines 313-314);
  pc 4 — done.
Since only one path is concerned, the set is a single boolean `inFlight`
(`add` sets it, `discard` clears it).  The ghost flags record, per
invocation, whether its guard fired while the path was in flight (`ign`) and
whether it entered the body (`ent`). -/

structure GuardState where
  pcA : Fin 5
  pcB : Fin 5
  inFlight : Bool
  ignA : Bool
  ignB : Bool
  entA : Bool
  entB : Bool
deriving DecidableEq, Repr

instance : Fintype GuardState :=
  Fintype.ofEquiv (Fin 5 × Fin 5 × Bool × Bool × Bool × Bool × Bool)
    { toFun := fun x =>
        ⟨x.1, x.2.1, x.2.2.1, x.2.2.2.1, x.2.2.2.2.1, x.2.2.2.2.2.1,
          x.2.2.2.2.2.2⟩
      invFun := fun s =>
        (s.pcA, s.pcB, s.inFlight, s.ignA, s.ignB, s.entA, s.entB)
      left_inv := fun _ => rfl
      right_inv := fun _ => rfl }

/-- One atomic step of one invocation: given the current membership of the
path in the set and the invocation's program counter, the new counter, the
new membership, whether the guard observed the path in flight, and whether
the body was entered by this step. -/
def taskStep (inF : Bool) (pc : Fin 5) : Fin 5 × Bool × Bool × Bool :=
  if pc = 0 then
    (if inF then (4, inF, true, false) else (1, inF, false, false))
  else if pc = 1 then (2, true, false, false)
  else if pc = 2 then (3, inF, false, true)
  else if pc = 3 then (4, false, false, false)
  else (pc, inF, false, false)

/-- One step of the two-invocation system: the scheduler picks invocation B
when `who` is true, A otherwise. -/
def stepSys (s : GuardState) (who : Bool) : GuardState :=
  if who then
    { s with pcB := (taskStep s.inFlight s.pcB).1,
             inFlight := (taskStep s.inFlight s.pcB).2.1,
             ignB := s.ignB || (taskStep s.inFlight s.pcB).2.2.1,
             entB := s.entB || (taskStep s.inFlight s.pcB).2.2.2 }
  else
    { s with pcA := (taskStep s.inFlight s.pcA).1,
             inFlight := (taskStep s.inFlight s.pcA).2.1,
             ignA := s.ignA || (taskStep s.inFlight s.pcA).2.2.1,
             entA := s.entA || (taskStep s.inFlight s.pcA).2.2.2 }

/-- Run the system under an arbitrary interleaving. -/
def runSched (s : GuardState) : List Bool → GuardState
  | [] => s
  | w :: ws => runSched (stepSys s w) ws

/-- Both invocations pending, path not in the set, nothing recorded. -/
def guardInit : GuardState :=
  ⟨0, 0, false, false, false, false, false⟩

/-- Inductive invariant of the guard system: an ignored invocation is done
and never entered the body; an invocation entered the body iff it is at or
past the body having passed the guard; the path is in the set only while
some invocation is between add and discard; and an ignored invocation's
peer had passed its add at the ignoring moment. -/
def guardInvB (s : GuardState) : Bool :=
  (!s.ignA || (s.pcA == 4 && !s.entA)) &&
  (!s.ignB || (s.pcB == 4 && !s.entB)) &&
  (s.entA == (s.pcA == 3 || (s.pcA == 4 && !s.ignA))) &&
  (s.entB == (s.pcB == 3 || (s.pcB == 4 && !s.ignB))) &&
  (!s.inFlight || (s.pcA == 2 || s.pcA == 3 || s.pcB == 2 || s.pcB == 3)) &&
  (!s.ignA || (s.pcB == 2 || s.pcB == 3 || (s.pcB == 4 && !s.ignB))) &&
  (!s.ignB || (s.pcA == 2 || s.pcA == 3 || (s.pcA == 4 && !s.ignA)))

/-- The consequences of the invariant used by claim C4. -/
def guardConcB (s : GuardState) : Bool :=
  (!s.ignA || !s.entA) &&
  (!s.ignB || !s.entB) &&
  (!(s.pcA == 4) || !(s.pcB == 4) || !s.inFlight) &&
  (!(s.pcA == 4) || !(s.pcB == 4) || !(s.ignA || s.ignB) ||
    ((cond s.entA 1 0) + (cond s.entB 1 0) == 1))

set_option maxHeartbeats 1000000 in
theorem guardInvB_step :
    ∀ (pa pb : Fin 5) (f ia ib ea eb w : Bool),
      (!guardInvB ⟨pa, pb, f, ia, ib, ea, eb⟩
        || guardInvB (stepSys ⟨pa, pb, f, ia, ib, ea, eb⟩ w)) = true := by
  decide

set_option maxHeartbeats 1000000 in
theorem guardInvB_conc :
    ∀ (pa pb : Fin 5) (f ia ib ea eb : Bool),
      (!guardInvB ⟨pa, pb, f, ia, ib, ea, eb⟩
        || guardConcB ⟨pa, pb, f, ia, ib, ea, eb⟩) = true := by
  decide

theorem guardInvB_run :
    ∀ (sched : List Bool) (s : GuardState), guardInvB s = true →
      guardInvB (runSched s sched) = true := by
  intro sched
  induction sched with
  | nil => intro s h; exact h
  | cons w ws ih =>
    intro s h
    apply ih
    have hstep : (!guardInvB s || guardInvB (stepSys s w)) = true :=
      guardInvB_step s.pcA s.pcB s.inFlight s.ignA s.ignB s.entA s.entB w
    rw [h] at hstep
    simpa using hstep

/-- Claim C4: under every interleaving of two handler invocations for the
same descriptor path, (i) an invocation whose guard check found the path in
the in-flight set never enters the job body; (ii) once both invocations have
finished — whatever the body's outcome, since every outcome reaches the
`finally` discard — the path is no longer in the set; and (iii) if one of
the two was ignored by the guard (the "rapid duplicate" scenario: its check
ran while the other was in flight), the body was entered exactly once. -/
theorem claim_c4 (sched : List Bool) :
    ((runSched guardInit sched).ignA = true →
      (runSched guardInit sched).entA = false) ∧
    ((runSched guardInit sched).ignB = true →
      (runSched guardInit sched).entB = false) ∧
    ((runSched guardInit sched).pcA = 4 → (runSched guardInit sched).pcB = 4 →
      (runSched guardInit sched).inFlight = false) ∧
    ((runSched guardInit sched).pcA = 4 → (runSched guardInit sched).pcB = 4 →
      ((runSched guardInit sched).ignA = true ∨
        (runSched guardInit sched).ignB = true) →
      (cond (runSched guardInit sched).entA 1 0)
        + (cond (runSched guardInit sched).entB 1 0) = 1) := by
  have hinv : guardInvB (runSched guardInit sched) = true :=
    guardInvB_run sched guardInit (by decide)
  have hconc : guardConcB (runSched guardInit sched) = true := by
    have h2 : (!guardInvB (runSched guardInit sched)
        || guardConcB (runSched guardInit sched)) = true :=
      guardInvB_conc (runSched guardInit sched).pcA
        (runSched guardInit sched).pcB (runSched guardInit sched).inFlight
        (runSched guardInit sched).ignA (runSched guardInit sched).ignB
        (runSched guardInit sched).entA (runSched guardInit sched).entB
    rw [hinv] at h2
    simpa using h2
  rw [guardConcB] at hconc
  simp only [Bool.and_eq_true] at hconc
  obtain ⟨⟨⟨h1, h2⟩, h3⟩, h4⟩ := hconc
  refine ⟨?_, ?_, ?_, ?_⟩
  · intro h
    rw [h] at h1
    simpa using h1
  · intro h
    rw [h] at h2
    simpa using h2
  · intro ha hb
    rw [ha, hb] at h3
    simpa using h3
  · intro ha hb hign
    have hig : ((runSched guardInit sched).ignA
        || (runSched guardInit sched).ignB) = true := by
      rcases hign with h | h <;> simp [h]
    rw [ha, hb, hig] at h4
    simpa using h4

/-- Witness for C4 under the schedule guard-A, add-A, guard-B (which sees the
path in flight and is ignored), body-A, discard-A: the body runs exactly
once, invocation B never enters it, and the set is empty at the end. -/
theorem claim_c4_witness :
    ((runSched guardInit [false, false, true, false, false]).entB = false) ∧
    ((runSched guardInit [false, false, true, false, false]).inFlight
      = false) ∧
    ((cond (runSched guardInit [false, false, true, false, false]).entA 1 0)
      + (cond (runSched guardInit [false, false, true, false, false]).entB 1 0)
      = 1) :=
  ⟨(claim_c4 [false, false, true, false, false]).2.1 (by decide),
   (claim_c4 [false, false, true, false, false]).2.2.1 (by decide) (by decide),
   (claim_c4 [false, false, true, false, false]).2.2.2 (by decide) (by decide)
     (Or.inr (by decide))⟩

/-! ## Daily aggregation

Embedding of `HealthDataProcessor._aggregate_daily` (src/worker.py, lines
196-225); the aggregation loop of `export_excel` (src/daily_stats_all.py,
lines 379-398) has the same per-record structure with the date parse hoisted
before the type filter.

A record is its three attributes of interest, each possibly absent
(`attrib.get` returns `None`).  `datetime.fromisoformat` composed with
`.date()` is the oracle `parseDate` (returning a day, e.g. an ordinal;
`none` is a `ValueError`), `float()` is the oracle `parseVal` (`none` is a
`ValueError`); both are stdlib collaborators outside the repository.  The
`defaultdict` of per-day metric dictionaries is a total function from day
and metric key to the accumulated value.

The crucial translation point at lines 215-216: `startdate` is
`record.attrib.get("startDate")`; when the attribute is absent this is
`None`, and `None.replace(" +", "+")` raises `AttributeError` — which the
`except (ValueError, TypeError)` at line 222 does not catch (the `TypeError`
there would only cover `fromisoformat(None)`, never reached).  The exception
escapes `_aggregate_daily` and aborts the whole aggregation (it is caught
only at line 175, failing `process_xml`). -/

inductive PyExc where
  | attributeError
deriving DecidableEq, Repr

/-- The attributes of one `Record` element used by the aggregation. -/
structure HRecord where
  rtype : Option String
  startDate : Option String
  value : Option String
deriving DecidableEq, Repr

/-- `daily_data`: day and metric key to accumulated value, defaulting to 0. -/
def DayAgg : Type := Int → String → ℚ

/-- The `aggregate_map` of src/worker.py, lines 198-205. -/
def aggregateMap : List (String × String) :=
  [("HKQuantityTypeIdentifierStepCount", "steps"),
   ("HKQuantityTypeIdentifierDistanceWalkingRunning", "distance"),
   ("HKQuantityTypeIdentifierActiveEnergyBurned", "calories"),
   ("HKQuantityTypeIdentifierBasalEnergyBurned", "basal_calories"),
   ("HKQuantityTypeIdentifierFlightsClimbed", "flights"),
   ("HKQuantityTypeIdentifierAppleExerciseTime", "exercise")]

/-- `aggregate_map[dtype]` as a lookup; `none` is `dtype not in aggregate_map`
(line 211). -/
def mapKey (t : String) : Option String :=
  aggregateMap.lookup t

/-- `daily_data[day_key][key] += value` (line 221). -/
def bump (m : DayAgg) (d : Int) (k : String) (v : ℚ) : DayAgg :=
  fun d2 k2 => if d2 = d ∧ k2 = k then m d2 k2 + v else m d2 k2

/-- One iteration of the record loop (src/worker.py, lines 209-223). -/
def aggStep (parseDate : String → Option Int) (parseVal : String → Option ℚ)
    (m : DayAgg) (r : HRecord) : Except PyExc DayAgg :=
  match r.rtype with
  | none => .ok m
  | some t =>
    match mapKey t with
    | none => .ok m
    | some key =>
      match r.startDate with
      | none => .error .attributeError
      | some s =>
        match parseDate (s.replace " +" "+") with
        | none => .ok m
        | some day =>
          match parseVal (r.value.getD "0") with
          | none => .ok m
          | some v => .ok (bump m day key v)

/-- The record loop with exception propagation: an escaping exception aborts
the remaining records and loses the accumulated map. -/
def aggFold (parseDate : String → Option Int) (parseVal : String → Option ℚ) :
    List HRecord → DayAgg → Except PyExc DayAgg
  | [], m => .ok m
  | r :: rs, m =>
    match aggStep parseDate parseVal m r with
    | .error e => .error e
    | .ok m2 => aggFold parseDate parseVal rs m2

/-- `HealthDataProcessor._aggregate_daily` (src/worker.py, lines 196-225). -/
def _aggregate_daily (parseDate : String → Option Int)
    (parseVal : String → Option ℚ) (records : List HRecord) :
    Except PyExc DayAgg :=
  aggFold parseDate parseVal records (fun _ _ => 0)

/-- The day, metric key and value a record contributes, when it contributes
at all. -/
def contrib (parseDate : String → Option Int) (parseVal : String → Option ℚ)
    (r : HRecord) : Option (Int × String × ℚ) :=
  r.rtype.bind fun t => (mapKey t).bind fun key =>
    r.startDate.bind fun s => (parseDate (s.replace " +" "+")).bind fun day =>
      (parseVal (r.value.getD "0")).map fun v => (day, key, v)

/-- Counterexample to claim C10: a record of a mapped quantity type whose
`startDate` attribute is absent is not skipped — the aggregation raises
`AttributeError` and the contribution of every other record (here a second,
fully well-formed step record) is lost, so the aggregation is not total. -/
theorem claim_c10_counterexample :
    _aggregate_daily (fun _ => some 0) (fun _ => some 1)
      [⟨some "HKQuantityTypeIdentifierStepCount", none, some "5"⟩,
       ⟨some "HKQuantityTypeIdentifierStepCount", some "2025-08-01", some "5"⟩]
      = .error .attributeError := rfl

theorem aggFold_cons (parseDate : String → Option Int)
    (parseVal : String → Option ℚ) (r : HRecord) (rs : List HRecord)
    (m0 : DayAgg) :
    aggFold parseDate parseVal (r :: rs) m0
      = match aggStep parseDate parseVal m0 r with
        | .error e => .error e
        | .ok m2 => aggFold parseDate parseVal rs m2 := rfl

theorem aggFold_spec (parseDate : String → Option Int)
    (parseVal : String → Option ℚ) :
    ∀ (records : List HRecord) (m0 : DayAgg),
      (∀ r ∈ records, r.startDate = none →
        ∀ t, r.rtype = some t → mapKey t = none) →
      ∃ m, aggFold parseDate parseVal records m0 = .ok m ∧
        ∀ (d : Int) (k : String), m d k = m0 d k +
          (((records.filterMap (contrib parseDate parseVal)).filter
              (fun x => decide (x.1 = d ∧ x.2.1 = k))).map
            (fun x => x.2.2)).sum := by
  intro records
  induction records with
  | nil =>
    intro m0 hgood
    exact ⟨m0, rfl, fun d k => by simp [List.filterMap]⟩
  | cons r rs ih =>
    intro m0 hgood
    have hgood2 : ∀ q ∈ rs, q.startDate = none →
        ∀ t, q.rtype = some t → mapKey t = none :=
      fun q hq => hgood q (List.mem_cons_of_mem r hq)
    cases hrt : r.rtype with
    | none =>
      obtain ⟨m, hm, hsum⟩ := ih m0 hgood2
      have hstep : aggStep parseDate parseVal m0 r = .ok m0 := by
        simp [aggStep, hrt]
      have hcontrib : contrib parseDate parseVal r = none := by
        simp [contrib, hrt]
      refine ⟨m, ?_, ?_⟩
      · rw [aggFold_cons, hstep]
        exact hm
      · intro d k
        rw [hsum d k, List.filterMap_cons, hcontrib]
    | some t =>
      cases hmk : mapKey t with
      | none =>
        obtain ⟨m, hm, hsum⟩ := ih m0 hgood2
        have hstep : aggStep parseDate parseVal m0 r = .ok m0 := by
          simp [aggStep, hrt, hmk]
        have hcontrib : contrib parseDate parseVal r = none := by
          simp [contrib, hrt, hmk]
        refine ⟨m, ?_, ?_⟩
        · rw [aggFold_cons, hstep]
          exact hm
        · intro d k
          rw [hsum d k, List.filterMap_cons, hcontrib]
      | some key =>
        cases hsd : r.startDate with
        | none =>
          exact absurd (hgood r (List.mem_cons_self r rs) hsd t hrt)
            (by rw [hmk]; exact fun h => Option.noConfusion h)
        | some s =>
          cases hpd : parseDate (s.replace " +" "+") with
          | none =>
            obtain ⟨m, hm, hsum⟩ := ih m0 hgood2
            have hstep : aggStep parseDate parseVal m0 r = .ok m0 := by
              simp [aggStep, hrt, hmk, hsd, hpd]
            have hcontrib : contrib parseDate parseVal r = none := by
              simp [contrib, hrt, hmk, hsd, hpd]
            refine ⟨m, ?_, ?_⟩
            · rw [aggFold_cons, hstep]
              exact hm
            · intro d k
              rw [hsum d k, List.filterMap_cons, hcontrib]
          | some day =>
            cases hpv : parseVal (r.value.getD "0") with
            | none =>
              obtain ⟨m, hm, hsum⟩ := ih m0 hgood2
              have hstep : aggStep parseDate parseVal m0 r = .ok m0 := by
                simp [aggStep, hrt, hmk, hsd, hpd, hpv]
              have hcontrib : contrib parseDate parseVal r = none := by
                simp [contrib, hrt, hmk, hsd, hpd, hpv]
              refine ⟨m, ?_, ?_⟩
              · rw [aggFold_cons, hstep]
                exact hm
              · intro d k
                rw [hsum d k, List.filterMap_cons, hcontrib]
            | some v =>
              obtain ⟨m, hm, hsum⟩ := ih (bump m0 day key v) hgood2
              have hstep : aggStep parseDate parseVal m0 r
                  = .ok (bump m0 day key v) := by
                simp [aggStep, hrt, hmk, hsd, hpd, hpv]
              have hcontrib : contrib parseDate parseVal r
                  = some (day, key, v) := by
                simp [contrib, hrt, hmk, hsd, hpd, hpv]
              refine ⟨m, ?_, ?_⟩
              · rw [aggFold_cons, hstep]
                exact hm
              · intro d k
                rw [hsum d k, List.filterMap_cons, hcontrib]
                by_cases hdk : d = day ∧ k = key
                · rw [List.filter_cons_of_pos (by simp [hdk.1, hdk.2])]
                  rw [show bump m0 day key v d k = m0 d k + v from by
                    rw [bump, if_pos hdk]]
                  simp only [List.map_cons, List.sum_cons]
                  ring
                · rw [List.filter_cons_of_neg (by
                    simp only [decide_eq_true_eq]
                    exact fun h => hdk ⟨h.1.symm, h.2.symm⟩)]
                  rw [show bump m0 day key v d k = m0 d k from by
                    rw [bump, if_neg hdk]]

/-- Claim C10 as amended: when every record of a mapped quantity type carries
a `startDate` attribute, the daily aggregation is total: a record whose
(present) startDate fails to parse or whose value is not numeric is skipped
without raising and without affecting other records, and every remaining
mapped record has its value added to exactly one day bucket — the bucket of
its start date — under its mapped metric key (the bucket totals are exactly
the per-(day, key) sums of the contributing records). -/
theorem claim_c10 (parseDate : String → Option Int)
    (parseVal : String → Option ℚ) (records : List HRecord)
    (hgood : ∀ r ∈ records, r.startDate = none →
      ∀ t, r.rtype = some t → mapKey t = none) :
    ∃ m, _aggregate_daily parseDate parseVal records = .ok m ∧
      ∀ (d : Int) (k : String), m d k =
        (((records.filterMap (contrib parseDate parseVal)).filter
            (fun x => decide (x.1 = d ∧ x.2.1 = k))).map
          (fun x => x.2.2)).sum := by
  obtain ⟨m, hm, hsum⟩ :=
    aggFold_spec parseDate parseVal records (fun _ _ => 0) hgood
  exact ⟨m, hm, fun d k => by rw [hsum d k]; ring⟩

/-- Witness for C10: one step record with a parsable date, one record with an
unparsable date (skipped), one unmapped record; all buckets come out as the
claim's sums. -/
theorem claim_c10_witness :
    ∃ m, _aggregate_daily
        (fun s => if s = "2025-08-01" then some 20300 else none)
        (fun s => if s = "5" then some 5 else none)
        [⟨some "HKQuantityTypeIdentifierStepCount", some "2025-08-01",
            some "5"⟩,
         ⟨some "HKQuantityTypeIdentifierStepCount", some "garbage", some "5"⟩,
         ⟨some "HKQuantityTypeIdentifierHeight", some "2025-08-01",
            some "1.7"⟩] = .ok m ∧
      ∀ (d : Int) (k : String), m d k =
        ((([⟨some "HKQuantityTypeIdentifierStepCount", some "2025-08-01",
              some "5"⟩,
            ⟨some "HKQuantityTypeIdentifierStepCount", some "garbage",
              some "5"⟩,
            (⟨some "HKQuantityTypeIdentifierHeight", some "2025-08-01",
              some "1.7"⟩ : HRecord)].filterMap
              (contrib (fun s => if s = "2025-08-01" then some 20300 else none)
                (fun s => if s = "5" then some 5 else none))).filter
            (fun x => decide (x.1 = d ∧ x.2.1 = k))).map
          (fun x => x.2.2)).sum :=
  claim_c10 (fun s => if s = "2025-08-01" then some 20300 else none)
    (fun s => if s = "5" then some 5 else none) _
    (by
      intro r hr hsd t hrt
      simp only [List.mem_cons] at hr
      rcases hr with h | h | h | h
      · subst h; cases hsd
      · subst h; cases hsd
      · subst h; cases hsd
      · exact absurd h (List.not_mem_nil r))

end AppleHealth
